import Mathlib

/-!
Verification of the harvesting orchestration engine in `src/app.py`:
domain-based adapter dispatch, the dedup fence over the two MongoDB
stores, the per-URL pipeline (`process_url` / `process_and_store`),
the semaphore-bounded scheduler, and the buffered batch writer inside
`main`.  Python dictionaries are modelled as insertion-ordered
association lists, Python exceptions as `Except`, and the stateful
driver as explicit state passing.
-/

namespace Crawlers

/-- Python runtime values that occur in the records this program builds:
strings and `None`. -/
inductive PyVal where
  | vstr (s : String)
  | vnone
deriving DecidableEq, Repr

/-- A Python dict with string keys, modelled as an insertion-ordered
association list (CPython dicts preserve insertion order). -/
abbrev Rec : Type := List (String × PyVal)

/-- Dict update `d[k] = v`: overwrite in place when the key exists,
otherwise append at the end (CPython semantics). -/
def Rec.set (r : Rec) (k : String) (v : PyVal) : Rec :=
  if r.any (fun p => p.1 = k) then
    r.map (fun p => if p.1 = k then (k, v) else p)
  else
    r ++ [(k, v)]

/-- Dict read `d.get(k)`: `some v` when the key is present, `none`
otherwise (Python returns `None`). -/
def Rec.get? (r : Rec) (k : String) : Option PyVal :=
  (r.find? (fun p => p.1 = k)).map (fun p => p.2)

/-- Whether `pre` is a prefix of `l`. -/
def charsStartWith : List Char → List Char → Bool
  | [], _ => true
  | _ :: _, [] => false
  | a :: as, b :: bs => a == b && charsStartWith as bs

/-- Whether `sub` occurs contiguously inside `l`. -/
def charsContain (sub : List Char) : List Char → Bool
  | [] => charsStartWith sub []
  | c :: rest => charsStartWith sub (c :: rest) || charsContain sub rest

/-- Python substring test `sub in s` on strings. -/
def strIn (sub s : String) : Bool :=
  charsContain sub.toList s.toList

/-- Models `urlparse(url).netloc` from the Python standard library for
absolute URLs with an explicit scheme: the text after the first `://`,
up to the next `/`, `?` or `#`; empty when the URL has no `://`. -/
def netlocChars : List Char → List Char
  | [] => []
  | ':' :: '/' :: '/' :: rest =>
      rest.takeWhile (fun c => c ≠ '/' && c ≠ '?' && c ≠ '#')
  | _ :: rest => netlocChars rest

/-- String wrapper for `netlocChars`. -/
def netloc (url : String) : String :=
  String.mk (netlocChars url.toList)

/-- ASCII lowercasing of one character, as Python `str.lower` acts on
the ASCII hosts this program handles. -/
def pyLowerChar : Char → Char
  | 'A' => 'a' | 'B' => 'b' | 'C' => 'c' | 'D' => 'd' | 'E' => 'e'
  | 'F' => 'f' | 'G' => 'g' | 'H' => 'h' | 'I' => 'i' | 'J' => 'j'
  | 'K' => 'k' | 'L' => 'l' | 'M' => 'm' | 'N' => 'n' | 'O' => 'o'
  | 'P' => 'p' | 'Q' => 'q' | 'R' => 'r' | 'S' => 's' | 'T' => 't'
  | 'U' => 'u' | 'V' => 'v' | 'W' => 'w' | 'X' => 'x' | 'Y' => 'y'
  | 'Z' => 'z' | c => c

/-- Python `str.split('.')`: split at every dot, keeping empty pieces. -/
def splitOnDot : List Char → List (List Char)
  | [] => [[]]
  | '.' :: rest => [] :: splitOnDot rest
  | c :: rest =>
    match splitOnDot rest with
    | [] => [[c]]
    | p :: ps => (c :: p) :: ps

/-- Python `'.'.join(parts)` on character lists. -/
def joinDot : List (List Char) → List Char
  | [] => []
  | [p] => p
  | p :: ps => p ++ '.' :: joinDot ps

/-- Embedding of `get_domain` (src/app.py lines 1944-1950): lowercase the
netloc, split on dots, and when there are more than two labels keep the
last two joined by a dot. -/
def get_domain (url : String) : String :=
  let domain := (netloc url).toList.map pyLowerChar
  let parts := splitOnDot domain
  if parts.length > 2 then
    String.mk (joinDot (parts.drop (parts.length - 2)))
  else
    String.mk domain

/-- Keys of the `DOMAIN_EXTRACTORS` dict (src/app.py lines 1712-1761) in
insertion order; the duplicate registration of "mymedisage.com" keeps the
first position and (identical) value, so each key appears once. -/
def domainKeys : List String :=
  ["practo.com", "quickerala.com", "patakare.com", "drlogy.com",
   "drdata.in", "healthfrog.in", "ask4healthcare.com", "apollo247.com",
   "curofy.com", "converse.rgcross.com", "deldure.com", "credihealth.com",
   "doctor360.in", "bajajfinservhealth.in", "doctoriduniya.com",
   "askadoctor24x7.com", "prescripson.com", "justdialdds.com",
   "ihindustan.com", "lybrate.com", "sehat.com", "lazoi.com",
   "skedoc.com", "mymedisage.com", "medibuddy.in", "myupchar.com",
   "healthworldhospitals.com", "docindia.org", "meddco.com",
   "medindia.net", "healthgrades.com", "clinicspots.com",
   "hexahealth.com", "kivihealth.com", "babymhospital.org",
   "arogyamitra.com", "medicoverhospitals.com", "maxhealthcare.in",
   "manipalhospitals.com", "mappls.com", "eka.care"]

/-- The `PLAYWRIGHT_DOMAINS` set (src/app.py line 1777). -/
def playwrightDomains : List String :=
  ["practo.com", "www.docindia.org", "babymhospital.org",
   "arogyamitra.com", "mappls.com", "maxhealthcare.in"]

/-- Embedding of the extractor selection in `process_and_store`
(src/app.py line 2134): the first registered domain key that occurs as a
substring of the full URL string, in registration order; `none` when no
key matches. The selected key stands for the extractor function
registered under it. -/
def selectExtractorKey (url : String) : Option String :=
  domainKeys.find? (fun k => strIn k url)

/-- An extraction routine from `DOMAIN_EXTRACTORS`. A `sync` adapter is a
plain function on the HTML string; an `interactive` adapter is an `async
def` (detected in the source with `asyncio.iscoroutinefunction`) that
receives the live page, abstracted here by the page content string.
The result models the Python return value: `.error` is a raised
exception, `.ok none` a non-dict return value (for example the coroutine
object produced when an `async def` adapter is called without `await`),
and `.ok (some r)` a returned dict `r`. -/
inductive Adapter where
  | sync (f : String → String → Except String (Option Rec))
  | interactive (f : String → String → Except String (Option Rec))

/-- Outcomes of the external collaborators (network, browser, MongoDB)
for one run; the embedding is parametric in them. -/
structure Env where
  gotoFails : String → Bool
  pageContent : String → String
  crawlRaises : String → Bool
  crawlSuccess : String → Bool
  crawlHtml : String → String
  masterInsertFails : Rec → Bool
  targetInsertFails : List Rec → Bool

/-- Observable side effects of the pipeline: semaphore traffic, fetch
calls, browser lifecycle calls, and store writes (with their success
flag). -/
inductive Ev where
  | acquire
  | release
  | crawlFetch (url : String)
  | browserLaunch
  | browserNewContext
  | browserNewPage
  | browserGoto (url : String)
  | browserCloseContext
  | browserCloseBrowser
  | browserStop
  | masterInsert (r : Rec) (ok : Bool)
  | targetInsertMany (rs : List Rec) (ok : Bool)
deriving DecidableEq, Repr

/-- The fetch calls (Crawl4AI `arun` or Playwright `page.goto`) recorded
in an event list underneath. -/
def fetchUrls (evs : List Ev) : List String :=
  evs.filterMap (fun e => match e with
    | Ev.crawlFetch u => some u
    | Ev.browserGoto u => some u
    | _ => none)

/-- Records passed to `master_collection.insert_one` in an event list. -/
def masterRecs (evs : List Ev) : List Rec :=
  evs.filterMap (fun e => match e with
    | Ev.masterInsert r _ => some r
    | _ => none)

/-- Batches passed to `target_collection.insert_many` in an event list. -/
def targetBatches (evs : List Ev) : List (List Rec) :=
  evs.filterMap (fun e => match e with
    | Ev.targetInsertMany rs _ => some rs
    | _ => none)

/-- Embedding of the body of `process_url` inside the `try` block
(src/app.py lines 1953-2007), given the extractor chosen by the caller:
the unregistered-domain gate, the two Playwright branches, the Crawl4AI
branch, and the final dict check that adds `Record_id` and `url`.
The `Except` error is an exception escaping to the handler at line 2009.
In the interactive branch `page.goto` (line 1967) sits before the
`try/finally`, so a navigation failure skips the close calls; in the
sync branch a failure inside `async with async_playwright()` runs only
the implicit `p.stop` of the context manager, skipping the explicit
`context.close()` and `browser.close()` of lines 1984-1985. -/
def process_url_body (env : Env) (extractor : Adapter) (url : String)
    (record_id : PyVal) : List Ev × Except String (Option Rec) :=
  let domain := get_domain url
  if !(domainKeys.contains domain) then
    ([], Except.ok none)
  else
    let fetched : List Ev × Except String (Option Rec) :=
      if playwrightDomains.contains domain then
        let pre := [Ev.browserLaunch, Ev.browserNewContext, Ev.browserNewPage]
        match extractor with
        | Adapter.interactive f =>
          if env.gotoFails url then
            (pre ++ [Ev.browserGoto url], Except.error "goto failed")
          else
            let closes := [Ev.browserCloseContext, Ev.browserCloseBrowser,
                           Ev.browserStop]
            match f (env.pageContent url) url with
            | Except.error e => (pre ++ [Ev.browserGoto url] ++ closes, Except.error e)
            | Except.ok x => (pre ++ [Ev.browserGoto url] ++ closes, Except.ok x)
        | Adapter.sync f =>
          if env.gotoFails url then
            (pre ++ [Ev.browserGoto url, Ev.browserStop], Except.error "goto failed")
          else
            match f (env.pageContent url) url with
            | Except.error e =>
              (pre ++ [Ev.browserGoto url, Ev.browserStop], Except.error e)
            | Except.ok x =>
              (pre ++ [Ev.browserGoto url, Ev.browserCloseContext,
                       Ev.browserCloseBrowser, Ev.browserStop], Except.ok x)
      else
        if env.crawlRaises url then
          ([Ev.crawlFetch url], Except.error "crawler error")
        else if !(env.crawlSuccess url) then
          ([Ev.crawlFetch url], Except.ok none)
        else
          match extractor with
          | Adapter.sync f => ([Ev.crawlFetch url], f (env.crawlHtml url) url)
          | Adapter.interactive _ => ([Ev.crawlFetch url], Except.ok none)
    match fetched with
    | (evs, Except.error e) => (evs, Except.error e)
    | (evs, Except.ok none) => (evs, Except.ok none)
    | (evs, Except.ok (some r)) =>
      (evs, Except.ok (some ((r.set "Record_id" record_id).set "url" (PyVal.vstr url))))

/-- Embedding of `process_url` (src/app.py lines 1951-2012): the
semaphore is acquired on entry and released when the `async with` block
exits on any path, and the `except` at line 2009 converts every
exception from the body into the `None` result. -/
def process_url (env : Env) (extractor : Adapter) (url : String)
    (record_id : PyVal) : List Ev × Option Rec :=
  let (evs, res) := process_url_body env extractor url record_id
  ([Ev.acquire] ++ evs ++ [Ev.release],
   match res with
   | Except.ok x => x
   | Except.error _ => none)

/-- One row of the input collection, as consumed by `process_and_store`
(src/app.py lines 2127-2133): `item.get` of the used keys, `none`
modelling an absent key (Python `None`). -/
structure Item where
  link : Option String
  record_id : PyVal
  client_name : PyVal
  client_city : PyVal
  client_speciality : PyVal
deriving DecidableEq, Repr

/-- The value of `item.get("link")` as a Python value. -/
def linkPy (i : Item) : PyVal :=
  match i.link with
  | some s => PyVal.vstr s
  | none => PyVal.vnone

/-- The metadata update applied to a successful result before it is
handed to the stores (src/app.py lines 2140-2148). -/
def storeUpdate (item : Item) (url : String) (r : Rec) : Rec :=
  ((((((r.set "client_name" item.client_name).set
      "client_city" item.client_city).set
      "client_speciality" item.client_speciality).set
      "url" (PyVal.vstr url)).set
      "record_id" item.record_id).set
      "original_record_id" PyVal.vnone).set
      "new_record_id" item.record_id

/-- The `insert_batch_size` flush threshold of the driver
(src/app.py line 2121). -/
def insert_batch_size : Nat := 50

/-- Embedding of the closure `process_and_store` (src/app.py lines
2127-2160), parametric in the buffer it shares with the page
(`batch_results`): extractor selection by substring over the whole URL
(line 2134), the pipeline call, the metadata update, the guarded
`insert_one` whose `try` block also contains the buffer append (lines
2149-2153), and the threshold flush whose `batch_results.clear()` sits
outside the `try` (lines 2155-2160). Returns the new buffer, the events
of this call, and `.error` when an exception escapes the closure (which
happens when `item.get("link")` is `None`, since `domain in url` then
raises `TypeError`). -/
def process_and_store (env : Env) (fns : String → Adapter) (threshold : Nat)
    (buffer : List Rec) (item : Item) :
    List Rec × List Ev × Except String Unit :=
  match item.link with
  | none => (buffer, [], Except.error "TypeError: argument of type NoneType is not iterable")
  | some url =>
    match selectExtractorKey url with
    | none => (buffer, [], Except.ok ())
    | some key =>
      let (evs, res) := process_url env (fns key) url item.record_id
      match res with
      | none => (buffer, evs, Except.ok ())
      | some r0 =>
        let r := storeUpdate item url r0
        let masterOk := !(env.masterInsertFails r)
        let evs := evs ++ [Ev.masterInsert r masterOk]
        let buffer1 := if masterOk then buffer ++ [r] else buffer
        if buffer1.length ≥ threshold then
          ([], evs ++ [Ev.targetInsertMany buffer1 (!(env.targetInsertFails buffer1))],
           Except.ok ())
        else
          (buffer1, evs, Except.ok ())

/-- Sequential linearization of awaiting the page's tasks through
`tqdm_asyncio.as_completed` (src/app.py lines 2163-2165): each task runs
`process_and_store`; the first exception raised by an awaited task
propagates to the top-level handler of `main` and stops the remaining
work. -/
def runTasks (env : Env) (fns : String → Adapter) (threshold : Nat) :
    List Rec → List Item → List Rec × List Ev × Except String Unit
  | buffer, [] => (buffer, [], Except.ok ())
  | buffer, item :: rest =>
    match process_and_store env fns threshold buffer item with
    | (buffer1, evs, Except.ok ()) =>
      let (buffer2, evs2, ex) := runTasks env fns threshold buffer1 rest
      (buffer2, evs ++ evs2, ex)
    | (buffer1, evs, Except.error e) => (buffer1, evs, Except.error e)

/-- Truthiness filter of the dict comprehension at src/app.py line 2103:
`item.get("link")` must be a non-empty string. -/
def truthyLink (i : Item) : Option String :=
  match i.link with
  | some s => if s = "" then none else some s
  | none => none

/-- Keys of the `url_to_record` dict in first-occurrence order
(src/app.py lines 2103-2104): duplicate links collapse to one key. -/
def firstOccurAux (seen : List String) : List String → List String
  | [] => []
  | x :: xs =>
    if seen.contains x then firstOccurAux seen xs
    else x :: firstOccurAux (x :: seen) xs

/-- The `all_urls` list of a page (src/app.py line 2104). -/
def allUrls (rows : List Item) : List String :=
  firstOccurAux [] (rows.filterMap truthyLink)

/-- A MongoDB document is a flat dict here. -/
abbrev Doc : Type := Rec

/-- Mongo query `{field: {"$in": urls}}` on a flat document: the field
must be present with a string value occurring in `urls`. -/
def docMatchesIn (d : Doc) (field : String) (urls : List String) : Bool :=
  match d.get? field with
  | some (PyVal.vstr s) => urls.contains s
  | _ => false

/-- Python `doc.get("source_url")`: the stored value, or `None` when the
field is absent. -/
def docGetPy (d : Doc) (k : String) : PyVal :=
  match d.get? k with
  | some v => v
  | none => PyVal.vnone

/-- Embedding of the dedup fence (src/app.py lines 2107-2109): the
master store is queried with the misspelled field name `souce_url`, the
target store with `source_url`, and the resulting set collects
`doc.get("source_url")` of the matched documents. The Python set is
modelled as a list since only membership is used. -/
def reused_urls_set (master target : List Doc) (urls : List String) : List PyVal :=
  ((master.filter (fun d => docMatchesIn d "souce_url" urls)) ++
   (target.filter (fun d => docMatchesIn d "source_url" urls))).map
    (fun d => docGetPy d "source_url")

/-- The filtered work set of a page (src/app.py line 2113): the raw rows
whose `link` value is not in the reused set. -/
def to_scrape (master target : List Doc) (rows : List Item) : List Item :=
  let reused := reused_urls_set master target (allUrls rows)
  rows.filter (fun i => !(reused.contains (linkPy i)))

/-- Embedding of one iteration of the page loop in `main` (src/app.py
lines 2096-2173): build the work set through the dedup fence, run the
tasks, then the final flush (lines 2167-2173) whose `clear()` is again
outside the `try`. -/
def runPage (env : Env) (fns : String → Adapter) (threshold : Nat)
    (master target : List Doc) (rows : List Item) :
    List Rec × List Ev × Except String Unit :=
  match runTasks env fns threshold [] (to_scrape master target rows) with
  | (buf, evs, Except.ok ()) =>
    if buf.isEmpty then (buf, evs, Except.ok ())
    else ([], evs ++ [Ev.targetInsertMany buf (!(env.targetInsertFails buf))],
          Except.ok ())
  | x => x

/-- The concurrency limit configured in the driver
(src/app.py line 2120). -/
def concurrency : Nat := 5

/-- Scheduler state: `asyncio.Semaphore(concurrency)` (src/app.py line
2123) is the `avail` counter; the page's per-URL pipelines are counted
as not yet started (`pending`), holding a slot inside `async with sem`
(`running`, src/app.py line 1952), or completed (`done`). -/
structure SchedState where
  avail : Nat
  pending : Nat
  running : Nat
  done : Nat
deriving DecidableEq, Repr

/-- Step relation of the cooperative scheduler: a pipeline may enter
`async with sem` only when the semaphore counter is positive
(decrementing it), and leaving the block on any path — the `ok` flag
records success or failure — increments the counter again. -/
inductive SchedStep : SchedState → SchedState → Prop where
  | acquire (s : SchedState) (hp : 0 < s.pending) (ha : 0 < s.avail) :
      SchedStep s ⟨s.avail - 1, s.pending - 1, s.running + 1, s.done⟩
  | finish (s : SchedState) (ok : Bool) (hr : 0 < s.running) :
      SchedStep s ⟨s.avail + 1, s.pending, s.running - 1, s.done + 1⟩

/-- Initial scheduler state for a work set of `n` pipelines under limit
`limit`: the fresh semaphore counter is the full limit. -/
def schedInit (limit n : Nat) : SchedState :=
  ⟨limit, n, 0, 0⟩

/-- States of the scheduler reachable from the initial state. -/
def SchedReachable (limit n : Nat) (s : SchedState) : Prop :=
  Relation.ReflTransGen SchedStep (schedInit limit n) s

/-- Environment in which every external call succeeds. -/
def envOk : Env :=
  { gotoFails := fun _ => false
    pageContent := fun _ => ""
    crawlRaises := fun _ => false
    crawlSuccess := fun _ => true
    crawlHtml := fun _ => ""
    masterInsertFails := fun _ => false
    targetInsertFails := fun _ => false }

/-- Adapter table in which every key maps to a sync extractor returning
a minimal record with the `source_url` field, as every routine in
src/app.py does (each begins with `data = {"source_url": url}`). -/
def fnsMinimal : String → Adapter :=
  fun _ => Adapter.sync (fun _ u => Except.ok (some [("source_url", PyVal.vstr u)]))

/-- An input row with the given link and record id and no client
metadata. -/
def mkItem (link : String) (rid : String) : Item :=
  { link := some link
    record_id := PyVal.vstr rid
    client_name := PyVal.vnone
    client_city := PyVal.vnone
    client_speciality := PyVal.vnone }

/-- Environment in which `page.goto` raises for every URL and everything
else succeeds. -/
def envGotoFail : Env :=
  { envOk with gotoFails := fun _ => true }

/-- C1: the dedup fence is supposed to suppress fetches for URLs present
by `source_url` in either store, but the master-store query
(src/app.py line 2107) filters on the misspelled field `souce_url`, so a
URL recorded in the master store under `source_url` is fetched again,
while the same document in the target store does suppress the fetch. -/
theorem master_fence_misses_source_url :
    (fetchUrls (runPage envOk fnsMinimal insert_batch_size
        [[("source_url", PyVal.vstr "https://practo.com/doctor/alice")]] []
        [mkItem "https://practo.com/doctor/alice" "r1"]).2.1)
      = ["https://practo.com/doctor/alice"] ∧
    (fetchUrls (runPage envOk fnsMinimal insert_batch_size
        [] [[("source_url", PyVal.vstr "https://practo.com/doctor/alice")]]
        [mkItem "https://practo.com/doctor/alice" "r1"]).2.1) = [] := by
  constructor
  · decide
  · decide

/-- C3: when navigation fails, the Browser strategy leaks its resources.
In the interactive branch `page.goto` (src/app.py line 1967) precedes the
`try/finally`, so a goto failure produces zero close calls for the
launched browser, context and page; in the sync branch the explicit
`context.close()`/`browser.close()` (lines 1984-1985) are skipped as
well. The claim that each is closed exactly once on every exit path is
therefore false on the navigation-failure path. -/
theorem browser_leak_on_navigation_failure :
    (let evs := (process_url envGotoFail
        (Adapter.interactive (fun _ _ => Except.ok none))
        "https://babymhospital.org/doc" PyVal.vnone).1
     evs.count Ev.browserLaunch = 1 ∧
     evs.count (Ev.browserGoto "https://babymhospital.org/doc") = 1 ∧
     evs.count Ev.browserCloseContext = 0 ∧
     evs.count Ev.browserCloseBrowser = 0 ∧
     evs.count Ev.browserStop = 0) ∧
    (let evs := (process_url envGotoFail
        (Adapter.sync (fun _ _ => Except.ok none))
        "https://practo.com/doctor/alice" PyVal.vnone).1
     evs.count Ev.browserLaunch = 1 ∧
     evs.count (Ev.browserGoto "https://practo.com/doctor/alice") = 1 ∧
     evs.count Ev.browserCloseContext = 0 ∧
     evs.count Ev.browserCloseBrowser = 0) := by
  constructor
  · decide
  · decide

/-- Semaphore bookkeeping invariant: the free slots and the running
pipelines always account for the whole limit. -/
theorem sched_avail_add_running (limit n : Nat) (s : SchedState)
    (h : SchedReachable limit n s) : s.avail + s.running = limit := by
  induction h with
  | refl => simp [schedInit]
  | tail _ step ih =>
    cases step with
    | acquire hp ha => dsimp only at *; omega
    | finish ok hr => dsimp only at *; omega

/-- C4: in any reachable scheduler state the number of pipelines holding
a semaphore slot never exceeds the configured limit (5 in the driver),
and every completion step — successful or failed alike — returns its
slot to the semaphore. -/
theorem scheduler_bounds_inflight (n : Nat) (s : SchedState)
    (h : SchedReachable concurrency n s) :
    s.running ≤ concurrency ∧
    (∀ s₁ s₂ : SchedState, SchedStep s₁ s₂ → s₂.done = s₁.done + 1 →
      s₂.avail = s₁.avail + 1) := by
  constructor
  · have := sched_avail_add_running concurrency n s h
    omega
  · intro s₁ s₂ step hdone
    cases step with
    | acquire hp ha => dsimp only at hdone; omega
    | finish ok hr => rfl

/-- Witness for C4 at the state reached after one pipeline acquired a
slot out of a work set of seven. -/
theorem scheduler_bounds_inflight_witness :
    (⟨4, 6, 1, 0⟩ : SchedState).running ≤ concurrency ∧
    (∀ s₁ s₂ : SchedState, SchedStep s₁ s₂ → s₂.done = s₁.done + 1 →
      s₂.avail = s₁.avail + 1) :=
  scheduler_bounds_inflight 7 ⟨4, 6, 1, 0⟩
    (Relation.ReflTransGen.single
      (SchedStep.acquire (schedInit concurrency 7) (by decide) (by decide)))

/-- C2 counterexample: for the URL `https://x.org/practo.com` the domain
key `x.org` is unregistered, yet the substring dispatch of src/app.py
line 2134 selects the practo adapter because the registered key
`practo.com` occurs in the URL's path. -/
theorem substring_dispatch_counterexample :
    selectExtractorKey "https://x.org/practo.com" = some "practo.com" ∧
    get_domain "https://x.org/practo.com" = "x.org" ∧
    domainKeys.contains "x.org" = false := by
  refine ⟨by decide, by decide, by decide⟩

/-- Splitting fetch events over concatenated event lists. -/
theorem fetchUrls_append (a b : List Ev) :
    fetchUrls (a ++ b) = fetchUrls a ++ fetchUrls b := by
  simp [fetchUrls]

/-- A gated `process_url_body` issues exactly one fetch call; the
unregistered gate issues none. -/
theorem fetchUrls_body (env : Env) (extractor : Adapter)
    (url : String) (rid : PyVal) :
    fetchUrls (process_url_body env extractor url rid).1 =
      if domainKeys.contains (get_domain url) then [url] else [] := by
  cases hgate : domainKeys.contains (get_domain url) with
  | false =>
    have hgate' : get_domain url ∉ domainKeys := by simpa using hgate
    simp [process_url_body, hgate, hgate', fetchUrls]
  | true =>
    have hgate' : get_domain url ∈ domainKeys := by simpa using hgate
    unfold process_url_body
    cases hpw : playwrightDomains.contains (get_domain url) with
    | true =>
      have hpw' : get_domain url ∈ playwrightDomains := by simpa using hpw
      cases extractor with
      | interactive f =>
        cases hgoto : env.gotoFails url with
        | true => simp [hgate, hgate', hpw, hpw', hgoto, fetchUrls]
        | false =>
          rcases hf : f (env.pageContent url) url with e | x
          · simp [hgate, hgate', hpw, hpw', hgoto, hf, fetchUrls]
          · rcases x with _ | r <;>
              simp [hgate, hgate', hpw, hpw', hgoto, hf, fetchUrls]
      | sync f =>
        cases hgoto : env.gotoFails url with
        | true => simp [hgate, hgate', hpw, hpw', hgoto, fetchUrls]
        | false =>
          rcases hf : f (env.pageContent url) url with e | x
          · simp [hgate, hgate', hpw, hpw', hgoto, hf, fetchUrls]
          · rcases x with _ | r <;>
              simp [hgate, hgate', hpw, hpw', hgoto, hf, fetchUrls]
    | false =>
      have hpw' : get_domain url ∉ playwrightDomains := by simpa using hpw
      cases hcr : env.crawlRaises url with
      | true => simp [hgate, hgate', hpw, hpw', hcr, fetchUrls]
      | false =>
        cases hcs : env.crawlSuccess url with
        | false => simp [hgate, hgate', hpw, hpw', hcr, hcs, fetchUrls]
        | true =>
          cases extractor with
          | sync f =>
            rcases hf : f (env.crawlHtml url) url with e | x
            · simp [hgate, hgate', hpw, hpw', hcr, hcs, hf, fetchUrls]
            · rcases x with _ | r <;>
                simp [hgate, hgate', hpw, hpw', hcr, hcs, hf, fetchUrls]
          | interactive f => simp [hgate, hgate', hpw, hpw', hcr, hcs, fetchUrls]

/-- The events of `process_url` are the body events wrapped in the
semaphore acquire and release. -/
theorem process_url_events (env : Env) (extractor : Adapter)
    (url : String) (rid : PyVal) :
    (process_url env extractor url rid).1 =
      Ev.acquire :: (process_url_body env extractor url rid).1 ++ [Ev.release] := by
  unfold process_url
  rcases h : process_url_body env extractor url rid with ⟨evs, res⟩
  simp

/-- A gated pipeline issues exactly one fetch call; the unregistered
gate issues none. -/
theorem fetchUrls_process_url (env : Env) (extractor : Adapter)
    (url : String) (rid : PyVal) :
    fetchUrls (process_url env extractor url rid).1 =
      if domainKeys.contains (get_domain url) then [url] else [] := by
  rw [process_url_events]
  rw [show (Ev.acquire :: (process_url_body env extractor url rid).1 ++ [Ev.release])
        = [Ev.acquire] ++ (process_url_body env extractor url rid).1 ++ [Ev.release] from rfl]
  rw [fetchUrls_append, fetchUrls_append]
  rw [fetchUrls_body env extractor url rid]
  simp [fetchUrls]

/-- C2 amended: adapter selection is substring dispatch — an adapter is
selected for a URL iff some registered key occurs as a substring of the
full URL string (src/app.py line 2134) — and a fetch is then issued iff,
in addition, the URL's domain key is exactly equal to a registered key
(the gate at lines 1954-1958). -/
theorem dispatch_substring_and_exact_gate (url : String) (env : Env)
    (fns : String → Adapter) (threshold : Nat) (buffer : List Rec)
    (item : Item) (hl : item.link = some url) :
    ((selectExtractorKey url).isSome ↔ ∃ k ∈ domainKeys, strIn k url = true) ∧
    (fetchUrls (process_and_store env fns threshold buffer item).2.1 ≠ [] ↔
      ((selectExtractorKey url).isSome ∧
        domainKeys.contains (get_domain url) = true)) := by
  constructor
  · simp [selectExtractorKey, List.find?_isSome]
  · unfold process_and_store
    rw [hl]
    rcases hsel : selectExtractorKey url with _ | key
    · simp [hsel, fetchUrls]
    · simp only [hsel]
      rcases hpu : process_url env (fns key) url item.record_id with ⟨evs, res⟩
      have hfetch : fetchUrls evs =
          if domainKeys.contains (get_domain url) then [url] else [] := by
        have h2 := fetchUrls_process_url env (fns key) url item.record_id
        rw [hpu] at h2
        exact h2
      simp only [hpu]
      cases res with
      | none =>
        cases hgate : domainKeys.contains (get_domain url) <;>
          simp_all [hfetch]
      | some r0 =>
        dsimp only
        split <;> split
        all_goals
          dsimp only
          simp only [fetchUrls_append, hfetch]
          cases hgate : domainKeys.contains (get_domain url) <;>
            simp_all [fetchUrls]

/-- Witness for C2 at a registered crawl-strategy URL. -/
theorem dispatch_substring_and_exact_gate_witness :
    ((selectExtractorKey "https://lybrate.com/d1").isSome ↔
      ∃ k ∈ domainKeys, strIn k "https://lybrate.com/d1" = true) ∧
    (fetchUrls (process_and_store envOk fnsMinimal 50 []
        (mkItem "https://lybrate.com/d1" "r1")).2.1 ≠ [] ↔
      ((selectExtractorKey "https://lybrate.com/d1").isSome ∧
        domainKeys.contains (get_domain "https://lybrate.com/d1") = true)) :=
  dispatch_substring_and_exact_gate "https://lybrate.com/d1" envOk fnsMinimal
    50 [] (mkItem "https://lybrate.com/d1" "r1") rfl

/-- Splitting master-insert records over concatenated event lists. -/
theorem masterRecs_append (a b : List Ev) :
    masterRecs (a ++ b) = masterRecs a ++ masterRecs b := by
  simp [masterRecs]

/-- Splitting target batches over concatenated event lists. -/
theorem targetBatches_append (a b : List Ev) :
    targetBatches (a ++ b) = targetBatches a ++ targetBatches b := by
  simp [targetBatches]

/-- The pipeline events of `process_url_body` contain no store writes:
all inserts happen in `process_and_store` after the pipeline returns. -/
theorem body_no_store_events (env : Env) (extractor : Adapter)
    (url : String) (rid : PyVal) :
    masterRecs (process_url_body env extractor url rid).1 = [] ∧
    targetBatches (process_url_body env extractor url rid).1 = [] := by
  cases hgate : domainKeys.contains (get_domain url) with
  | false =>
    have hgate' : get_domain url ∉ domainKeys := by simpa using hgate
    simp [process_url_body, hgate, hgate', masterRecs, targetBatches]
  | true =>
    have hgate' : get_domain url ∈ domainKeys := by simpa using hgate
    unfold process_url_body
    cases hpw : playwrightDomains.contains (get_domain url) with
    | true =>
      have hpw' : get_domain url ∈ playwrightDomains := by simpa using hpw
      cases extractor with
      | interactive f =>
        cases hgoto : env.gotoFails url with
        | true => simp [hgate, hgate', hpw, hpw', hgoto, masterRecs, targetBatches]
        | false =>
          rcases hf : f (env.pageContent url) url with e | x
          · simp [hgate, hgate', hpw, hpw', hgoto, hf, masterRecs, targetBatches]
          · rcases x with _ | r <;>
              simp [hgate, hgate', hpw, hpw', hgoto, hf, masterRecs, targetBatches]
      | sync f =>
        cases hgoto : env.gotoFails url with
        | true => simp [hgate, hgate', hpw, hpw', hgoto, masterRecs, targetBatches]
        | false =>
          rcases hf : f (env.pageContent url) url with e | x
          · simp [hgate, hgate', hpw, hpw', hgoto, hf, masterRecs, targetBatches]
          · rcases x with _ | r <;>
              simp [hgate, hgate', hpw, hpw', hgoto, hf, masterRecs, targetBatches]
    | false =>
      have hpw' : get_domain url ∉ playwrightDomains := by simpa using hpw
      cases hcr : env.crawlRaises url with
      | true => simp [hgate, hgate', hpw, hpw', hcr, masterRecs, targetBatches]
      | false =>
        cases hcs : env.crawlSuccess url with
        | false => simp [hgate, hgate', hpw, hpw', hcr, hcs, masterRecs, targetBatches]
        | true =>
          cases extractor with
          | sync f =>
            rcases hf : f (env.crawlHtml url) url with e | x
            · simp [hgate, hgate', hpw, hpw', hcr, hcs, hf, masterRecs, targetBatches]
            · rcases x with _ | r <;>
                simp [hgate, hgate', hpw, hpw', hcr, hcs, hf, masterRecs, targetBatches]
          | interactive f =>
            simp [hgate, hgate', hpw, hpw', hcr, hcs, masterRecs, targetBatches]

/-- The events of a full `process_url` call likewise contain no store
writes. -/
theorem process_url_no_store_events (env : Env) (extractor : Adapter)
    (url : String) (rid : PyVal) :
    masterRecs (process_url env extractor url rid).1 = [] ∧
    targetBatches (process_url env extractor url rid).1 = [] := by
  rw [process_url_events]
  rw [show (Ev.acquire :: (process_url_body env extractor url rid).1 ++ [Ev.release])
        = [Ev.acquire] ++ (process_url_body env extractor url rid).1 ++ [Ev.release] from rfl]
  rw [masterRecs_append, masterRecs_append, targetBatches_append, targetBatches_append]
  rcases body_no_store_events env extractor url rid with ⟨h1, h2⟩
  rw [h1, h2]
  simp [masterRecs, targetBatches]

/-- A pipeline whose domain-key gate fails does nothing but acquire and
release the semaphore slot. -/
theorem process_url_unregistered (env : Env) (extractor : Adapter)
    (url : String) (rid : PyVal)
    (hd : domainKeys.contains (get_domain url) = false) :
    process_url env extractor url rid = ([Ev.acquire, Ev.release], none) := by
  have hd' : get_domain url ∉ domainKeys := by simpa using hd
  unfold process_url process_url_body
  simp [hd, hd']

/-- C5 counterexample: the URL `https://x.org/practo.com` has the
unregistered domain key `x.org`, yet its pipeline acquires (and
releases) a semaphore slot, because the substring dispatch of line 2134
matched `practo.com` and `process_url` enters `async with sem` (line
1952) before checking the domain gate; the claim that such a URL is
skipped without consuming a slot is therefore false, although no fetch
and no store write occur. -/
theorem slot_consumed_for_unregistered_domain :
    domainKeys.contains (get_domain "https://x.org/practo.com") = false ∧
    (let out := process_and_store envOk fnsMinimal 50 []
        (mkItem "https://x.org/practo.com" "r1")
     out.2.1.count Ev.acquire = 1 ∧
     fetchUrls out.2.1 = [] ∧
     masterRecs out.2.1 = [] ∧
     targetBatches out.2.1 = [] ∧
     out.1 = []) := by
  decide

/-- C5 amended: a URL whose domain key has no registered adapter entry
performs no fetch and no store write and leaves the buffer unchanged;
it is skipped before the semaphore (no events at all) only when no
registered key occurs as a substring of the URL — otherwise the pipeline
acquires and releases a slot before skipping. -/
theorem unregistered_domain_skipped (env : Env) (fns : String → Adapter)
    (threshold : Nat) (buffer : List Rec) (item : Item) (url : String)
    (hl : item.link = some url)
    (hd : domainKeys.contains (get_domain url) = false) :
    fetchUrls (process_and_store env fns threshold buffer item).2.1 = [] ∧
    masterRecs (process_and_store env fns threshold buffer item).2.1 = [] ∧
    targetBatches (process_and_store env fns threshold buffer item).2.1 = [] ∧
    (process_and_store env fns threshold buffer item).1 = buffer ∧
    (selectExtractorKey url = none →
      (process_and_store env fns threshold buffer item).2.1 = []) ∧
    (∀ key, selectExtractorKey url = some key →
      (process_and_store env fns threshold buffer item).2.1 =
        [Ev.acquire, Ev.release]) := by
  unfold process_and_store
  rw [hl]
  rcases hsel : selectExtractorKey url with _ | key
  · simp [hsel, fetchUrls, masterRecs, targetBatches]
  · simp only [hsel, process_url_unregistered env (fns key) url item.record_id hd]
    simp [fetchUrls, masterRecs, targetBatches]

/-- Witness for C5 at the counterexample URL. -/
theorem unregistered_domain_skipped_witness :
    fetchUrls (process_and_store envOk fnsMinimal 50 []
      (mkItem "https://x.org/practo.com" "r1")).2.1 = [] ∧
    masterRecs (process_and_store envOk fnsMinimal 50 []
      (mkItem "https://x.org/practo.com" "r1")).2.1 = [] ∧
    targetBatches (process_and_store envOk fnsMinimal 50 []
      (mkItem "https://x.org/practo.com" "r1")).2.1 = [] ∧
    (process_and_store envOk fnsMinimal 50 []
      (mkItem "https://x.org/practo.com" "r1")).1 = [] ∧
    (selectExtractorKey "https://x.org/practo.com" = none →
      (process_and_store envOk fnsMinimal 50 []
        (mkItem "https://x.org/practo.com" "r1")).2.1 = []) ∧
    (∀ key, selectExtractorKey "https://x.org/practo.com" = some key →
      (process_and_store envOk fnsMinimal 50 []
        (mkItem "https://x.org/practo.com" "r1")).2.1 =
          [Ev.acquire, Ev.release]) :=
  unregistered_domain_skipped envOk fnsMinimal 50 []
    (mkItem "https://x.org/practo.com" "r1") "https://x.org/practo.com"
    rfl (by decide)

/-- Environment in which every master-store insert raises (for example a
duplicate key) and everything else succeeds. -/
def envMasterFail : Env :=
  { envOk with masterInsertFails := fun _ => true }

/-- C6 counterexample: the buffer append sits inside the same `try`
block as `master_collection.insert_one` (src/app.py lines 2149-2153), so
when the master insert raises, the append is skipped: one master insert
call is attempted, but the record never enters the buffer and the target
store receives no batch at all — contradicting the claim that the record
is still appended and still reaches the target store. -/
theorem master_failure_drops_record_from_target :
    (masterRecs (runPage envMasterFail fnsMinimal insert_batch_size [] []
        [mkItem "https://lybrate.com/d1" "r1"]).2.1).length = 1 ∧
    targetBatches (runPage envMasterFail fnsMinimal insert_batch_size [] []
        [mkItem "https://lybrate.com/d1" "r1"]).2.1 = [] ∧
    (runPage envMasterFail fnsMinimal insert_batch_size [] []
        [mkItem "https://lybrate.com/d1" "r1"]).1 = [] := by
  decide

/-- C6 amended: on add the record is inserted into the master store
immediately, but a master-insert error also skips the buffer append
(the append is inside the same `try`), so the failed record does not
reach the target store; only on master-insert success is the record
appended to the buffer destined for the target store. -/
theorem master_insert_error_skips_append (env : Env) (fns : String → Adapter)
    (threshold : Nat) (buffer : List Rec) (item : Item) (url : String)
    (key : String) (evs0 : List Ev) (r0 : Rec)
    (hl : item.link = some url) (hsel : selectExtractorKey url = some key)
    (hpu : process_url env (fns key) url item.record_id = (evs0, some r0)) :
    (env.masterInsertFails (storeUpdate item url r0) = true →
      (process_and_store env fns threshold buffer item).1 =
        (if buffer.length ≥ threshold then [] else buffer) ∧
      masterRecs (process_and_store env fns threshold buffer item).2.1 =
        [storeUpdate item url r0] ∧
      (∀ rs ok2, Ev.targetInsertMany rs ok2 ∈
          (process_and_store env fns threshold buffer item).2.1 → rs = buffer)) ∧
    (env.masterInsertFails (storeUpdate item url r0) = false →
      (process_and_store env fns threshold buffer item).1 =
        (if (buffer ++ [storeUpdate item url r0]).length ≥ threshold then []
         else buffer ++ [storeUpdate item url r0]) ∧
      masterRecs (process_and_store env fns threshold buffer item).2.1 =
        [storeUpdate item url r0] ∧
      (∀ rs ok2, Ev.targetInsertMany rs ok2 ∈
          (process_and_store env fns threshold buffer item).2.1 →
        rs = buffer ++ [storeUpdate item url r0])) := by
  obtain ⟨hm0, ht0⟩ := process_url_no_store_events env (fns key) url item.record_id
  rw [hpu] at hm0 ht0
  have hm0' : masterRecs evs0 = [] := hm0
  have ht0' : targetBatches evs0 = [] := ht0
  have hnotgt : ∀ rs ok2, Ev.targetInsertMany rs ok2 ∉ evs0 := by
    intro rs ok2 hmem
    have hx : rs ∈ targetBatches evs0 := List.mem_filterMap.mpr ⟨_, hmem, rfl⟩
    rw [ht0'] at hx
    exact absurd hx (List.not_mem_nil rs)
  unfold process_and_store
  rw [hl]
  simp only [hsel, hpu]
  constructor
  · intro hmf
    simp only [hmf, Bool.not_true, Bool.false_eq_true, if_false]
    split
    · refine ⟨rfl, ?_, ?_⟩
      · rw [masterRecs_append, masterRecs_append, hm0']
        simp [masterRecs]
      · intro rs ok2 hmem
        simp only [List.mem_append, List.mem_singleton] at hmem
        rcases hmem with (h | h) | h
        · exact absurd h (hnotgt rs ok2)
        · simp at h
        · simp at h
          exact h.1
    · refine ⟨rfl, ?_, ?_⟩
      · rw [masterRecs_append, hm0']
        simp [masterRecs]
      · intro rs ok2 hmem
        simp only [List.mem_append, List.mem_singleton] at hmem
        rcases hmem with h | h
        · exact absurd h (hnotgt rs ok2)
        · simp at h
  · intro hmf
    simp only [hmf, Bool.not_false, if_true]
    split
    · refine ⟨rfl, ?_, ?_⟩
      · rw [masterRecs_append, masterRecs_append, hm0']
        simp [masterRecs]
      · intro rs ok2 hmem
        simp only [List.mem_append, List.mem_singleton] at hmem
        rcases hmem with (h | h) | h
        · exact absurd h (hnotgt rs ok2)
        · simp at h
        · simp at h
          exact h.1
    · refine ⟨rfl, ?_, ?_⟩
      · rw [masterRecs_append, hm0']
        simp [masterRecs]
      · intro rs ok2 hmem
        simp only [List.mem_append, List.mem_singleton] at hmem
        rcases hmem with h | h
        · exact absurd h (hnotgt rs ok2)
        · simp at h

/-- Input row used to witness the batch-writer behavior. -/
def c6item : Item := mkItem "https://lybrate.com/d1" "r1"

/-- The record `process_url` returns for that row under `fnsMinimal`. -/
def c6r0 : Rec :=
  [("source_url", PyVal.vstr "https://lybrate.com/d1"),
   ("Record_id", PyVal.vstr "r1"),
   ("url", PyVal.vstr "https://lybrate.com/d1")]

/-- Witness for C6 with a failing master insert on a crawl-strategy
URL. -/
theorem master_insert_error_skips_append_witness :
    (envMasterFail.masterInsertFails
        (storeUpdate c6item "https://lybrate.com/d1" c6r0) = true →
      (process_and_store envMasterFail fnsMinimal 50 [] c6item).1 =
        (if ([] : List Rec).length ≥ 50 then [] else ([] : List Rec)) ∧
      masterRecs (process_and_store envMasterFail fnsMinimal 50 [] c6item).2.1 =
        [storeUpdate c6item "https://lybrate.com/d1" c6r0] ∧
      (∀ rs ok2, Ev.targetInsertMany rs ok2 ∈
          (process_and_store envMasterFail fnsMinimal 50 [] c6item).2.1 →
        rs = [])) ∧
    (envMasterFail.masterInsertFails
        (storeUpdate c6item "https://lybrate.com/d1" c6r0) = false →
      (process_and_store envMasterFail fnsMinimal 50 [] c6item).1 =
        (if (([] : List Rec) ++
            [storeUpdate c6item "https://lybrate.com/d1" c6r0]).length ≥ 50 then []
         else [] ++ [storeUpdate c6item "https://lybrate.com/d1" c6r0]) ∧
      masterRecs (process_and_store envMasterFail fnsMinimal 50 [] c6item).2.1 =
        [storeUpdate c6item "https://lybrate.com/d1" c6r0] ∧
      (∀ rs ok2, Ev.targetInsertMany rs ok2 ∈
          (process_and_store envMasterFail fnsMinimal 50 [] c6item).2.1 →
        rs = [] ++ [storeUpdate c6item "https://lybrate.com/d1" c6r0])) :=
  master_insert_error_skips_append envMasterFail fnsMinimal 50 [] c6item
    "https://lybrate.com/d1" "lybrate.com"
    [Ev.acquire, Ev.crawlFetch "https://lybrate.com/d1", Ev.release] c6r0
    rfl (by decide) (by decide)

/-- Evaluation of `process_and_store` on a row with no link: the
`TypeError` from `domain in url` escapes the closure. -/
theorem pas_none (env : Env) (fns : String → Adapter) (threshold : Nat)
    (buffer : List Rec) (item : Item) (hl : item.link = none) :
    process_and_store env fns threshold buffer item =
      (buffer, [], Except.error "TypeError: argument of type NoneType is not iterable") := by
  unfold process_and_store
  rw [hl]

/-- Evaluation of `process_and_store` when no registered key is a
substring of the URL: nothing happens. -/
theorem pas_nosel (env : Env) (fns : String → Adapter) (threshold : Nat)
    (buffer : List Rec) (item : Item) (url : String)
    (hl : item.link = some url) (hsel : selectExtractorKey url = none) :
    process_and_store env fns threshold buffer item =
      (buffer, [], Except.ok ()) := by
  unfold process_and_store
  rw [hl]
  simp [hsel]

/-- Evaluation of `process_and_store` when the pipeline produces no
record: only the pipeline events happen. -/
theorem pas_nores (env : Env) (fns : String → Adapter) (threshold : Nat)
    (buffer : List Rec) (item : Item) (url key : String) (evs0 : List Ev)
    (hl : item.link = some url) (hsel : selectExtractorKey url = some key)
    (hpu : process_url env (fns key) url item.record_id = (evs0, none)) :
    process_and_store env fns threshold buffer item =
      (buffer, evs0, Except.ok ()) := by
  unfold process_and_store
  rw [hl]
  simp only [hsel, hpu]

/-- Evaluation of `process_and_store` when the pipeline produces a
record: the guarded master insert, conditional append, and threshold
flush. -/
theorem pas_some (env : Env) (fns : String → Adapter) (threshold : Nat)
    (buffer : List Rec) (item : Item) (url key : String) (evs0 : List Ev)
    (r0 : Rec)
    (hl : item.link = some url) (hsel : selectExtractorKey url = some key)
    (hpu : process_url env (fns key) url item.record_id = (evs0, some r0)) :
    process_and_store env fns threshold buffer item =
      (let r := storeUpdate item url r0
       let masterOk := !(env.masterInsertFails r)
       let evs := evs0 ++ [Ev.masterInsert r masterOk]
       let buffer1 := if masterOk then buffer ++ [r] else buffer
       if buffer1.length ≥ threshold then
         ([], evs ++ [Ev.targetInsertMany buffer1 (!(env.targetInsertFails buffer1))],
          Except.ok ())
       else (buffer1, evs, Except.ok ())) := by
  unfold process_and_store
  rw [hl]
  simp only [hsel, hpu]

/-- The five-row page of Scenario C. -/
def c7rows : List Item :=
  [mkItem "https://lybrate.com/d1" "r1", mkItem "https://lybrate.com/d2" "r2",
   mkItem "https://lybrate.com/d3" "r3", mkItem "https://lybrate.com/d4" "r4",
   mkItem "https://lybrate.com/d5" "r5"]

/-- C7: a threshold flush inserts the whole buffer and clears it
regardless of the insert's outcome (the `clear()` of src/app.py line
2160 sits outside the `try`), the end-of-page flush (lines 2167-2173)
leaves an empty buffer, and with threshold 2 five successful sequential
extractions produce target batches of sizes [2, 2, 1] and five
individual master-store insert calls. -/
theorem flush_threshold_and_final :
    (∀ env fns threshold buffer item rs ok,
      Ev.targetInsertMany rs ok ∈
          (process_and_store env fns threshold buffer item).2.1 →
        (process_and_store env fns threshold buffer item).1 = []) ∧
    (∀ env fns threshold master target rows buf2 evs2,
      runPage env fns threshold master target rows = (buf2, evs2, Except.ok ()) →
        buf2 = []) ∧
    ((targetBatches (runPage envOk fnsMinimal 2 [] [] c7rows).2.1).map
        List.length = [2, 2, 1] ∧
      (masterRecs (runPage envOk fnsMinimal 2 [] [] c7rows).2.1).length = 5) := by
  refine ⟨?_, ?_, by decide, by decide⟩
  · intro env fns threshold buffer item rs ok hmem
    rcases hlink : item.link with _ | url
    · rw [pas_none env fns threshold buffer item hlink] at hmem ⊢
      simp at hmem
    · rcases hsel : selectExtractorKey url with _ | key
      · rw [pas_nosel env fns threshold buffer item url hlink hsel] at hmem ⊢
        simp at hmem
      · rcases hpu : process_url env (fns key) url item.record_id with ⟨evs0, res⟩
        obtain ⟨hm0, ht0⟩ := process_url_no_store_events env (fns key) url item.record_id
        rw [hpu] at hm0 ht0
        have ht0' : targetBatches evs0 = [] := ht0
        have hnotgt : ∀ rs2 ok2, Ev.targetInsertMany rs2 ok2 ∉ evs0 := by
          intro rs2 ok2 hmem2
          have hx : rs2 ∈ targetBatches evs0 := List.mem_filterMap.mpr ⟨_, hmem2, rfl⟩
          rw [ht0'] at hx
          exact absurd hx (List.not_mem_nil rs2)
        cases res with
        | none =>
          rw [pas_nores env fns threshold buffer item url key evs0 hlink hsel hpu]
            at hmem ⊢
          exact absurd hmem (hnotgt rs ok)
        | some r0 =>
          rw [pas_some env fns threshold buffer item url key evs0 r0 hlink hsel hpu]
            at hmem ⊢
          dsimp only at hmem ⊢
          cases hmf : env.masterInsertFails (storeUpdate item url r0) with
          | false =>
            simp only [hmf, Bool.not_false] at hmem ⊢
            rw [if_pos trivial] at hmem ⊢
            by_cases hth : (buffer ++ [storeUpdate item url r0]).length ≥ threshold
            · rw [if_pos hth]
            · rw [if_neg hth] at hmem ⊢
              exfalso
              simp only [List.mem_append, List.mem_singleton] at hmem
              rcases hmem with h | h
              · exact absurd h (hnotgt rs ok)
              · simp at h
          | true =>
            simp only [hmf, Bool.not_true] at hmem ⊢
            rw [if_neg Bool.false_ne_true] at hmem ⊢
            by_cases hth : buffer.length ≥ threshold
            · rw [if_pos hth]
            · rw [if_neg hth] at hmem ⊢
              exfalso
              simp only [List.mem_append, List.mem_singleton] at hmem
              rcases hmem with h | h
              · exact absurd h (hnotgt rs ok)
              · simp at h
  · intro env fns threshold master target rows buf2 evs2 hrun
    unfold runPage at hrun
    rcases hrt : runTasks env fns threshold [] (to_scrape master target rows)
      with ⟨buf, evs, ex⟩
    rw [hrt] at hrun
    cases ex with
    | error e => simp at hrun
    | ok u =>
      cases u
      dsimp only at hrun
      by_cases hbe : buf.isEmpty
      · rw [if_pos hbe] at hrun
        have h1 : buf = buf2 := congrArg Prod.fst hrun
        have h2 : buf = [] := by simpa using hbe
        rw [← h1, h2]
      · rw [if_neg hbe] at hrun
        exact (congrArg Prod.fst hrun).symm

/-- Witness for C7: with threshold 1 a single successful extraction
triggers a flush, and the buffer is left empty. -/
theorem flush_threshold_and_final_witness :
    (process_and_store envOk fnsMinimal 1 [] c6item).1 = [] :=
  flush_threshold_and_final.1 envOk fnsMinimal 1 [] c6item
    ([] ++ [storeUpdate c6item "https://lybrate.com/d1" c6r0]) true (by decide)

/-- A `process_and_store` call on a row whose link is a string never
propagates an exception (src/app.py line 2009 catches everything the
pipeline raises, and the store writes are inside their own
`try/except`). -/
theorem process_and_store_ok (env : Env) (fns : String → Adapter)
    (threshold : Nat) (buffer : List Rec) (item : Item) (url : String)
    (hl : item.link = some url) :
    (process_and_store env fns threshold buffer item).2.2 = Except.ok () := by
  rcases hsel : selectExtractorKey url with _ | key
  · rw [pas_nosel env fns threshold buffer item url hl hsel]
  · rcases hpu : process_url env (fns key) url item.record_id with ⟨evs0, res⟩
    cases res with
    | none =>
      rw [pas_nores env fns threshold buffer item url key evs0 hl hsel hpu]
    | some r0 =>
      rw [pas_some env fns threshold buffer item url key evs0 r0 hl hsel hpu]
      dsimp only
      split <;> split <;> rfl

/-- C8: every exception raised inside a URL's pipeline — fetch or
extraction, under any environment and any adapter — is caught at the
`except` of src/app.py line 2009 and converted to the `None` result, and
awaiting the page's tasks never raises when every dispatched row has a
string link, so the driver proceeds through the whole work set. -/
theorem per_url_errors_contained :
    (∀ env fns threshold buffer rows, (∀ i ∈ rows, i.link ≠ none) →
      (runTasks env fns threshold buffer rows).2.2 = Except.ok ()) ∧
    (∀ env extractor url rid e,
      (process_url_body env extractor url rid).2 = Except.error e →
      (process_url env extractor url rid).2 = none) := by
  constructor
  · intro env fns threshold buffer rows
    induction rows generalizing buffer with
    | nil => intro _; rfl
    | cons item rest ih =>
      intro hall
      have hitem : item.link ≠ none := hall item (List.mem_cons_self item rest)
      rcases hlk : item.link with _ | url
      · exact absurd hlk hitem
      · rcases hps : process_and_store env fns threshold buffer item with ⟨b1, evs, ex⟩
        have h2 := process_and_store_ok env fns threshold buffer item url hlk
        rw [hps] at h2
        have hex : ex = Except.ok () := h2
        subst hex
        unfold runTasks
        simp only [hps]
        rcases hrt : runTasks env fns threshold b1 rest with ⟨b2, evs2, ex2⟩
        simp only [hrt]
        have h3 := ih b1 (fun i hi => hall i (List.mem_cons_of_mem item hi))
        rw [hrt] at h3
        exact h3
  · intro env extractor url rid e he
    unfold process_url
    rcases hb : process_url_body env extractor url rid with ⟨evs, res⟩
    rw [hb] at he
    have hres : res = Except.error e := he
    subst hres
    rfl

/-- Witness for C8: a page with a Browser-strategy URL whose navigation
fails and a healthy crawl URL completes without raising. -/
theorem per_url_errors_contained_witness :
    (runTasks envGotoFail fnsMinimal 50 []
      [mkItem "https://practo.com/doctor/alice" "r1",
       mkItem "https://lybrate.com/d1" "r2"]).2.2 = Except.ok () :=
  per_url_errors_contained.1 envGotoFail fnsMinimal 50 []
    [mkItem "https://practo.com/doctor/alice" "r1",
     mkItem "https://lybrate.com/d1" "r2"] (by decide)

/-- C10: within one page the URL-to-record map collapses duplicate
links (one key), but the work set is built from the raw rows
(src/app.py line 2113), so two rows with the same link, absent from both
stores, are both dispatched and each success is written to the stores
independently: two master inserts and two records in the final target
batch. -/
theorem within_page_duplicate_rows :
    (allUrls [mkItem "https://lybrate.com/d1" "r1",
              mkItem "https://lybrate.com/d1" "r2"]).length = 1 ∧
    to_scrape [] [] [mkItem "https://lybrate.com/d1" "r1",
                     mkItem "https://lybrate.com/d1" "r2"] =
      [mkItem "https://lybrate.com/d1" "r1",
       mkItem "https://lybrate.com/d1" "r2"] ∧
    (masterRecs (runPage envOk fnsMinimal 50 [] []
        [mkItem "https://lybrate.com/d1" "r1",
         mkItem "https://lybrate.com/d1" "r2"]).2.1).length = 2 ∧
    (targetBatches (runPage envOk fnsMinimal 50 [] []
        [mkItem "https://lybrate.com/d1" "r1",
         mkItem "https://lybrate.com/d1" "r2"]).2.1).map List.length = [2] := by
  decide

/-- One clinic card (`.c-profile--clinic--item`) of a practo page: the
stripped text of each sub-selector, `none` when the element is absent. -/
structure ClinicS where
  nameText : Option String
  addressText : Option String
  timingText : Option String
  feeText : Option String
deriving DecidableEq, Repr

/-- Abstraction of a parsed BeautifulSoup document: the stripped text of
the first match of a CSS selector (`none` when nothing matches), the
stripped texts of all matches, and the clinic cards. -/
structure Soup where
  selectOneText : String → Option String
  selectAllTexts : String → List String
  clinics : List ClinicS

/-- Embedding of `safe_select` (src/app.py lines 44-50): the first
selector whose element exists with truthy stripped text wins, else the
"NA" sentinel. -/
def safe_select (soup : Soup) : List String → String
  | [] => "NA"
  | sel :: rest =>
    match soup.selectOneText sel with
    | some t => if t ≠ "" then t else safe_select soup rest
    | none => safe_select soup rest

/-- Embedding of `safe_select_all` (src/app.py lines 52-60): all truthy
texts over all selectors joined with ", ", else "NA". -/
def safe_select_all (soup : Soup) (sels : List String) : String :=
  let results := (sels.map (fun s => (soup.selectAllTexts s).filter (fun t => t ≠ ""))).flatten
  if results.isEmpty then "NA" else String.intercalate ", " results

/-- Python `el.get_text(strip=True) if el else "NA"`. -/
def optText : Option String → String
  | some t => t
  | none => "NA"

/-- Embedding of the clinic loop of `extract_structured_data_from_practo`
(src/app.py lines 104-120): clinics deduplicated by name, numbered
fields added from index 1 upward. -/
def practoClinicsAux (seen : List String) (idx : Nat) (data : Rec) :
    List ClinicS → Rec
  | [] => data
  | c :: rest =>
    let cname := optText c.nameText
    if seen.contains cname then practoClinicsAux seen idx data rest
    else
      let data1 := data.set ("clinic__name" ++ toString idx) (PyVal.vstr cname)
      let data2 := data1.set ("address" ++ toString idx) (PyVal.vstr (optText c.addressText))
      let data3 := data2.set ("timing" ++ toString idx) (PyVal.vstr (optText c.timingText))
      let data4 := data3.set ("fee" ++ toString idx) (PyVal.vstr (optText c.feeText))
      practoClinicsAux (cname :: seen) (idx + 1) data4 rest

/-- Embedding of `extract_structured_data_from_practo` (src/app.py lines
40-122): the record starts as the dict `{"source_url": url}` (line 42)
and each field assignment follows in source order, ending with the
clinic loop. -/
def extract_structured_data_from_practo (soup : Soup) (url : String) : Rec :=
  let data : Rec := [("source_url", PyVal.vstr url)]
  let data := data.set "name" (PyVal.vstr (safe_select soup ["h1", "#container h1"]))
  let data := data.set "clinic_name" (PyVal.vstr (safe_select soup
    ["div.c-profile__clinic__name h2 a", ".c-profile--clinic__name"]))
  let data := data.set "education" (PyVal.vstr (safe_select soup
    ["#education p", "div.info-section p"]))
  let data := data.set "experience" (PyVal.vstr (safe_select soup
    ["#experience h2", "div.info-section h2"]))
  let data := data.set "speciality" (PyVal.vstr (safe_select soup
    [".u-d-inline-flex", "#container div span > h2", "#container div span",
     ".c-profile--doctor__speciality"]))
  let data := data.set "address" (PyVal.vstr (safe_select soup
    ["div.c-profile--clinic__address", "div p.address", ".c-profile--clinic__address"]))
  let data := data.set "mci" (PyVal.vstr (safe_select soup
    ["#registrations .pure-u-1", "#registrations div"]))
  let data := data.set "passing_year" (PyVal.vstr (safe_select soup
    ["#education span span"]))
  let data := data.set "memberships" (PyVal.vstr (safe_select_all soup
    ["#memberships .p-entity--list"]))
  let data := data.set "fees" (PyVal.vstr (safe_select soup
    ["[data-qa-id=\x27consultation_fee\x27]", "#container div:nth-of-type(3) > div",
     ".c-profile--clinic__fee"]))
  let data := data.set "timing" (PyVal.vstr (safe_select soup
    ["[data-qa-id=\x27timings_list\x27]", "div.u-cushion--left"]))
  let data := data.set "awards" (PyVal.vstr (safe_select_all soup
    ["#awards\\ and\\ recognitions .pure-u-1"]))
  let data := data.set "specializations" (PyVal.vstr (safe_select_all soup
    ["#specializations .pure-u-1"]))
  let data := data.set "full_education" (PyVal.vstr (safe_select_all soup
    ["#education .pure-u-1"]))
  let data := data.set "full_experience" (PyVal.vstr (safe_select_all soup
    ["#experience .pure-u-1"]))
  let data := data.set "registrations" (PyVal.vstr (safe_select_all soup
    ["#registrations .pure-u-1"]))
  let data := data.set "services" (PyVal.vstr (safe_select_all soup
    ["#services .pure-u-1-3"]))
  practoClinicsAux [] 1 data soup.clinics

/-- Updating an existing key in place: lookups of that key find the new
pair. -/
theorem find?_map_set_self (t : Rec) (k : String) (v : PyVal)
    (hany : t.any (fun p => p.1 = k) = true) :
    (t.map (fun p => if p.1 = k then (k, v) else p)).find?
      (fun p => p.1 = k) = some (k, v) := by
  induction t with
  | nil => simp at hany
  | cons a t ih =>
    by_cases hak : a.1 = k
    · rw [List.map_cons, if_pos hak]
      exact List.find?_cons_of_pos _ (by simp)
    · rw [List.map_cons, if_neg hak]
      rw [List.find?_cons_of_neg _ (by simpa using hak)]
      exact ih (by simpa [hak] using hany)

/-- Updating one key in place: lookups of a different key are
unchanged. -/
theorem find?_map_set_ne (t : Rec) (k k' : String) (v : PyVal) (h : k' ≠ k) :
    (t.map (fun p => if p.1 = k then (k, v) else p)).find?
      (fun p => p.1 = k') = t.find? (fun p => p.1 = k') := by
  induction t with
  | nil => rfl
  | cons a t ih =>
    by_cases hak : a.1 = k
    · rw [List.map_cons, if_pos hak]
      rw [List.find?_cons_of_neg _ (by simpa using (h.symm : k ≠ k'))]
      rw [List.find?_cons_of_neg _
        (by simp only [decide_eq_true_eq]; exact fun hc => h.symm (hak ▸ hc))]
      exact ih
    · rw [List.map_cons, if_neg hak]
      by_cases hak' : a.1 = k'
      · rw [List.find?_cons_of_pos _ (by simpa using hak'),
            List.find?_cons_of_pos _ (by simpa using hak')]
      · rw [List.find?_cons_of_neg _ (by simpa using hak'),
            List.find?_cons_of_neg _ (by simpa using hak')]
        exact ih

/-- Reading a freshly set key returns its value. -/
theorem Rec.get?_set_self (r : Rec) (k : String) (v : PyVal) :
    (Rec.set r k v).get? k = some v := by
  unfold Rec.set Rec.get?
  by_cases hany : (r.any (fun p => p.1 = k)) = true
  · rw [if_pos hany]
    rw [find?_map_set_self r k v hany]
    rfl
  · rw [if_neg hany]
    rw [List.find?_append]
    have hnone : r.find? (fun p => p.1 = k) = none := by
      rw [List.find?_eq_none]
      intro x hx
      simp only [Bool.not_eq_true, decide_eq_false_iff_not]
      intro hxk
      exact hany (List.any_eq_true.mpr ⟨x, hx, by simpa using hxk⟩)
    rw [hnone]
    simp

/-- Setting one key leaves every other key's value unchanged. -/
theorem Rec.get?_set_ne (r : Rec) (k k' : String) (v : PyVal) (h : k' ≠ k) :
    (Rec.set r k v).get? k' = r.get? k' := by
  unfold Rec.set Rec.get?
  by_cases hany : (r.any (fun p => p.1 = k)) = true
  · rw [if_pos hany]
    rw [find?_map_set_ne r k k' v h]
  · rw [if_neg hany]
    rw [List.find?_append]
    have hone : List.find? (fun p => p.1 = k') [(k, v)] = none := by
      rw [List.find?_eq_none]
      intro x hx
      simp only [List.mem_singleton] at hx
      subst hx
      simpa using (h.symm : k ≠ k')
    rw [hone]
    simp

/-- A string starting with a character other than `s` never equals
`"source_url"`, whatever is appended to it. -/
theorem append_ne_source_url (pre suf : String) (c : Char) (cs : List Char)
    (hd : pre.data = c :: cs) (hc : c ≠ 's') : pre ++ suf ≠ "source_url" := by
  intro h
  have h1 : (pre ++ suf).data = ("source_url" : String).data := congrArg String.data h
  rw [String.data_append, hd] at h1
  rw [List.cons_append] at h1
  rw [show ("source_url" : String).data = 's' :: "ource_url".data from rfl] at h1
  injection h1 with hc2 _
  exact hc hc2

/-- The clinic loop only writes numbered keys starting with `c`, `a`,
`t` or `f`, so it never touches the `source_url` entry. -/
theorem practoClinicsAux_source_url (cs : List ClinicS) (seen : List String)
    (idx : Nat) (data : Rec) :
    (practoClinicsAux seen idx data cs).get? "source_url" =
      data.get? "source_url" := by
  induction cs generalizing seen idx data with
  | nil => rfl
  | cons c rest ih =>
    unfold practoClinicsAux
    by_cases hseen : seen.contains (optText c.nameText)
    · rw [if_pos hseen]
      exact ih seen idx data
    · rw [if_neg hseen]
      rw [ih]
      rw [Rec.get?_set_ne _ _ _ _
        (Ne.symm (append_ne_source_url "fee" (toString idx) 'f' _ rfl (by decide)))]
      rw [Rec.get?_set_ne _ _ _ _
        (Ne.symm (append_ne_source_url "timing" (toString idx) 't' _ rfl (by decide)))]
      rw [Rec.get?_set_ne _ _ _ _
        (Ne.symm (append_ne_source_url "address" (toString idx) 'a' _ rfl (by decide)))]
      rw [Rec.get?_set_ne _ _ _ _
        (Ne.symm (append_ne_source_url "clinic__name" (toString idx) 'c' _ rfl (by decide)))]

/-- Every practo record carries its URL under `source_url`, even when
every selector comes back empty. -/
theorem practo_source_url (soup : Soup) (url : String) :
    (extract_structured_data_from_practo soup url).get? "source_url" =
      some (PyVal.vstr url) := by
  unfold extract_structured_data_from_practo
  rw [practoClinicsAux_source_url]
  rw [Rec.get?_set_ne _ "services" "source_url" _ (by decide)]
  rw [Rec.get?_set_ne _ "registrations" "source_url" _ (by decide)]
  rw [Rec.get?_set_ne _ "full_experience" "source_url" _ (by decide)]
  rw [Rec.get?_set_ne _ "full_education" "source_url" _ (by decide)]
  rw [Rec.get?_set_ne _ "specializations" "source_url" _ (by decide)]
  rw [Rec.get?_set_ne _ "awards" "source_url" _ (by decide)]
  rw [Rec.get?_set_ne _ "timing" "source_url" _ (by decide)]
  rw [Rec.get?_set_ne _ "fees" "source_url" _ (by decide)]
  rw [Rec.get?_set_ne _ "memberships" "source_url" _ (by decide)]
  rw [Rec.get?_set_ne _ "passing_year" "source_url" _ (by decide)]
  rw [Rec.get?_set_ne _ "mci" "source_url" _ (by decide)]
  rw [Rec.get?_set_ne _ "address" "source_url" _ (by decide)]
  rw [Rec.get?_set_ne _ "speciality" "source_url" _ (by decide)]
  rw [Rec.get?_set_ne _ "experience" "source_url" _ (by decide)]
  rw [Rec.get?_set_ne _ "education" "source_url" _ (by decide)]
  rw [Rec.get?_set_ne _ "clinic_name" "source_url" _ (by decide)]
  rw [Rec.get?_set_ne _ "name" "source_url" _ (by decide)]
  rfl

/-- The extraction function registered behind an adapter. -/
def Adapter.fn : Adapter → (String → String → Except String (Option Rec))
  | Adapter.sync f => f
  | Adapter.interactive f => f

/-- When the body of `process_url` returns a dict, that dict is the
adapter's returned record with `Record_id` and `url` added by the block
at src/app.py lines 2002-2005. -/
theorem body_ok_some_shape (env : Env) (extractor : Adapter) (url : String)
    (rid : PyVal) (evs0 : List Ev) (r2 : Rec)
    (hb : process_url_body env extractor url rid = (evs0, Except.ok (some r2))) :
    ∃ h r1, Adapter.fn extractor h url = Except.ok (some r1) ∧
      r2 = (r1.set "Record_id" rid).set "url" (PyVal.vstr url) := by
  cases hgate : domainKeys.contains (get_domain url) with
  | false =>
    have hgate' : get_domain url ∉ domainKeys := by simpa using hgate
    unfold process_url_body at hb
    simp [hgate, hgate'] at hb
  | true =>
    have hgate' : get_domain url ∈ domainKeys := by simpa using hgate
    unfold process_url_body at hb
    cases hpw : playwrightDomains.contains (get_domain url) with
    | true =>
      have hpw' : get_domain url ∈ playwrightDomains := by simpa using hpw
      cases extractor with
      | interactive f =>
        cases hgoto : env.gotoFails url with
        | true => simp [hgate, hgate', hpw, hpw', hgoto] at hb
        | false =>
          rcases hf : f (env.pageContent url) url with e | x
          · simp [hgate, hgate', hpw, hpw', hgoto, hf] at hb
          · rcases x with _ | r
            · simp [hgate, hgate', hpw, hpw', hgoto, hf] at hb
            · refine ⟨env.pageContent url, r, hf, ?_⟩
              simp [hgate, hgate', hpw, hpw', hgoto, hf] at hb
              exact hb.2.symm
      | sync f =>
        cases hgoto : env.gotoFails url with
        | true => simp [hgate, hgate', hpw, hpw', hgoto] at hb
        | false =>
          rcases hf : f (env.pageContent url) url with e | x
          · simp [hgate, hgate', hpw, hpw', hgoto, hf] at hb
          · rcases x with _ | r
            · simp [hgate, hgate', hpw, hpw', hgoto, hf] at hb
            · refine ⟨env.pageContent url, r, hf, ?_⟩
              simp [hgate, hgate', hpw, hpw', hgoto, hf] at hb
              exact hb.2.symm
    | false =>
      have hpw' : get_domain url ∉ playwrightDomains := by simpa using hpw
      cases hcr : env.crawlRaises url with
      | true => simp [hgate, hgate', hpw, hpw', hcr] at hb
      | false =>
        cases hcs : env.crawlSuccess url with
        | false => simp [hgate, hgate', hpw, hpw', hcr, hcs] at hb
        | true =>
          cases extractor with
          | sync f =>
            rcases hf : f (env.crawlHtml url) url with e | x
            · simp [hgate, hgate', hpw, hpw', hcr, hcs, hf] at hb
            · rcases x with _ | r
              · simp [hgate, hgate', hpw, hpw', hcr, hcs, hf] at hb
              · refine ⟨env.crawlHtml url, r, hf, ?_⟩
                simp [hgate, hgate', hpw, hpw', hcr, hcs, hf] at hb
                exact hb.2.symm
          | interactive f =>
            simp [hgate, hgate', hpw, hpw', hcr, hcs] at hb

/-- Lifting `body_ok_some_shape` through the exception handler of
`process_url`. -/
theorem process_url_some_shape (env : Env) (extractor : Adapter)
    (url : String) (rid : PyVal) (evs : List Ev) (r0 : Rec)
    (hpu : process_url env extractor url rid = (evs, some r0)) :
    ∃ h r1, Adapter.fn extractor h url = Except.ok (some r1) ∧
      r0 = (r1.set "Record_id" rid).set "url" (PyVal.vstr url) := by
  unfold process_url at hpu
  rcases hb : process_url_body env extractor url rid with ⟨evs0, res⟩
  rw [hb] at hpu
  have hres := congrArg Prod.snd hpu
  dsimp only at hres
  cases res with
  | error e => simp at hres
  | ok x =>
    cases x with
    | none => simp at hres
    | some r2 =>
      have hr2 : r2 = r0 := by simpa using hres
      subst hr2
      exact body_ok_some_shape env extractor url rid evs0 r2 hb

/-- C9: every record the pipeline hands to the batch writer with the
practo adapter carries `source_url` equal to the URL it was extracted
from — even when every selector comes back empty so that all other
fields are "NA" — together with the originating record id, both as the
`Record_id` added in `process_url` (line 2003) and as the `record_id`
added in `process_and_store` (line 2145). -/
theorem record_carries_source_url (soupOf : String → Soup) (env : Env)
    (item : Item) (url : String) (evs : List Ev) (r0 : Rec)
    (hpu : process_url env
        (Adapter.sync (fun h u =>
          Except.ok (some (extract_structured_data_from_practo (soupOf h) u))))
        url item.record_id = (evs, some r0)) :
    (storeUpdate item url r0).get? "source_url" = some (PyVal.vstr url) ∧
    (storeUpdate item url r0).get? "Record_id" = some item.record_id ∧
    (storeUpdate item url r0).get? "record_id" = some item.record_id := by
  obtain ⟨h, r1, hfn, hr0⟩ :=
    process_url_some_shape env _ url item.record_id evs r0 hpu
  have hr1 : r1 = extract_structured_data_from_practo (soupOf h) url := by
    have := hfn
    simp only [Adapter.fn] at this
    exact (Option.some.inj (Except.ok.inj this)).symm
  subst hr1
  subst hr0
  unfold storeUpdate
  refine ⟨?_, ?_, ?_⟩
  · rw [Rec.get?_set_ne _ "new_record_id" "source_url" _ (by decide)]
    rw [Rec.get?_set_ne _ "original_record_id" "source_url" _ (by decide)]
    rw [Rec.get?_set_ne _ "record_id" "source_url" _ (by decide)]
    rw [Rec.get?_set_ne _ "url" "source_url" _ (by decide)]
    rw [Rec.get?_set_ne _ "client_speciality" "source_url" _ (by decide)]
    rw [Rec.get?_set_ne _ "client_city" "source_url" _ (by decide)]
    rw [Rec.get?_set_ne _ "client_name" "source_url" _ (by decide)]
    rw [Rec.get?_set_ne _ "url" "source_url" _ (by decide)]
    rw [Rec.get?_set_ne _ "Record_id" "source_url" _ (by decide)]
    exact practo_source_url (soupOf h) url
  · rw [Rec.get?_set_ne _ "new_record_id" "Record_id" _ (by decide)]
    rw [Rec.get?_set_ne _ "original_record_id" "Record_id" _ (by decide)]
    rw [Rec.get?_set_ne _ "record_id" "Record_id" _ (by decide)]
    rw [Rec.get?_set_ne _ "url" "Record_id" _ (by decide)]
    rw [Rec.get?_set_ne _ "client_speciality" "Record_id" _ (by decide)]
    rw [Rec.get?_set_ne _ "client_city" "Record_id" _ (by decide)]
    rw [Rec.get?_set_ne _ "client_name" "Record_id" _ (by decide)]
    rw [Rec.get?_set_ne _ "url" "Record_id" _ (by decide)]
    exact Rec.get?_set_self _ "Record_id" _
  · rw [Rec.get?_set_ne _ "new_record_id" "record_id" _ (by decide)]
    rw [Rec.get?_set_ne _ "original_record_id" "record_id" _ (by decide)]
    exact Rec.get?_set_self _ "record_id" _

/-- A soup in which every selector comes back empty: every practo field
except `source_url` becomes "NA". -/
def emptySoup : Soup :=
  { selectOneText := fun _ => none
    selectAllTexts := fun _ => []
    clinics := [] }

/-- The record the pipeline produces for the practo witness URL over the
empty soup. -/
def c9r0 : Rec :=
  ((extract_structured_data_from_practo emptySoup
      "https://practo.com/doctor/alice").set
    "Record_id" (PyVal.vstr "r1")).set
    "url" (PyVal.vstr "https://practo.com/doctor/alice")

/-- Witness for C9 on an all-"NA" practo extraction. -/
theorem record_carries_source_url_witness :
    (storeUpdate (mkItem "https://practo.com/doctor/alice" "r1")
        "https://practo.com/doctor/alice" c9r0).get? "source_url" =
      some (PyVal.vstr "https://practo.com/doctor/alice") ∧
    (storeUpdate (mkItem "https://practo.com/doctor/alice" "r1")
        "https://practo.com/doctor/alice" c9r0).get? "Record_id" =
      some (mkItem "https://practo.com/doctor/alice" "r1").record_id ∧
    (storeUpdate (mkItem "https://practo.com/doctor/alice" "r1")
        "https://practo.com/doctor/alice" c9r0).get? "record_id" =
      some (mkItem "https://practo.com/doctor/alice" "r1").record_id :=
  record_carries_source_url (fun _ => emptySoup) envOk
    (mkItem "https://practo.com/doctor/alice" "r1")
    "https://practo.com/doctor/alice"
    [Ev.acquire, Ev.browserLaunch, Ev.browserNewContext, Ev.browserNewPage,
     Ev.browserGoto "https://practo.com/doctor/alice", Ev.browserCloseContext,
     Ev.browserCloseBrowser, Ev.browserStop, Ev.release]
    c9r0 (by decide)

end Crawlers
